import Mathlib

/-!
# versa::async::executor

A verification development for `include/versa/async/executor.hpp`.

The class wraps one callable `_func` (a `std::function`) and one `std::mutex`.
`exec` launches the callable through `std::async`, `operator()` forwards to
`exec`, `exec_sync` calls it on the calling thread; all three construct a
`std::lock_guard` over `_mutex` first.

Two layers are given.

* A sequential layer: `exec`, `operator_call` and `exec_sync` as functions on
  the executor's fields, one caller at a time.
* A thread layer: every member-function call is cut at its statements into
  control points (`pc`), and `step i` lets thread `i` execute its next
  statement on the shared `world`.  Interleavings are schedules, lists of
  thread indices, executed by `run`.

Conventions: a callable either returns a value or throws, which is
`Except ε ρ`; the data a callable object carries (captures of a mutable
lambda, members of a functor) is its `target`, updated by every call.  An
empty `std::function` is a callable every call of which throws.  Thread
creation and mutex operations themselves are taken to succeed.
-/

namespace versa.async

/-! ## The wrapped callable -/

/-- The member type `function_type`, a `std::function`: the stored target
object together with its call operator.  A call may change the target and
either returns a value or throws. -/
structure function_type (σ α ε ρ : Type) where
  target : σ
  call : σ → α → Except ε ρ × σ

/-- Calling a `function_type` object, `f(args...)`: the outcome of the call and
the object afterwards. -/
def function_type.invoke {σ α ε ρ : Type} (f : function_type σ α ε ρ) (args : α) :
    Except ε ρ × function_type σ α ε ρ :=
  ((f.call f.target args).1, { f with target := (f.call f.target args).2 })

/-! ## The executor, one caller at a time -/

/-- The two data members of `executor`.  `_mutex` is `true` while the mutex is
owned. -/
structure executor (σ α ε ρ : Type) where
  _func : function_type σ α ε ρ
  _mutex : Bool

/-- The constructor `executor(F&& func)`: stores the callable and
default-constructs the mutex, which starts unowned. -/
def executor.ctor {σ α ε ρ : Type} (func : function_type σ α ε ρ) : executor σ α ε ρ :=
  { _func := func, _mutex := false }

/-- The `std::future` returned by `std::async(std::launch::async, f, args...)`:
the new thread runs the copies of `f` and `args` made at the launch. -/
structure future (σ α ε ρ : Type) where
  func : function_type σ α ε ρ
  args : α

/-- The call `std::async(std::launch::async, f, args...)`: copies the callable
and the arguments for the new thread. -/
def std_async {σ α ε ρ : Type} (f : function_type σ α ε ρ) (args : α) : future σ α ε ρ :=
  { func := f, args := args }

/-- The call `future::get`: waits for the launched call and returns its value or
rethrows what it threw. -/
def future.get {σ α ε ρ : Type} (h : future σ α ε ρ) : Except ε ρ :=
  (h.func.invoke h.args).1

/-- A scope opened by `std::lock_guard<std::mutex> lock(_mutex)`.  The
constructor locks the mutex; a caller that finds it owned blocks, which for a
single caller is `none`.  The scope then runs with the mutex owned, and the
destructor unlocks it on normal return and on unwinding alike. -/
def lock_guard {σ α ε ρ χ : Type} (self : executor σ α ε ρ)
    (scope : executor σ α ε ρ → Except ε χ × executor σ α ε ρ) :
    Option (Except ε χ × executor σ α ε ρ) :=
  match self._mutex with
  | true => none
  | false =>
    let out := scope { self with _mutex := true }
    some (out.1, { out.2 with _mutex := false })

/-- The member `exec`, lines 29-33: under the lock guard, launch a copy of
`_func` on the arguments and return the future. -/
def exec {σ α ε ρ : Type} (self : executor σ α ε ρ) (args : α) :
    Option (Except ε (future σ α ε ρ) × executor σ α ε ρ) :=
  lock_guard self fun s => (Except.ok (std_async s._func args), s)

/-- The member `operator()`, lines 35-36: `return exec(args...)`. -/
def operator_call {σ α ε ρ : Type} (self : executor σ α ε ρ) (args : α) :
    Option (Except ε (future σ α ε ρ) × executor σ α ε ρ) :=
  exec self args

/-- The member `exec_sync`, lines 38-42: under the lock guard, call `_func` in
place on the arguments and return what it returns. -/
def exec_sync {σ α ε ρ : Type} (self : executor σ α ε ρ) (args : α) :
    Option (Except ε ρ × executor σ α ε ρ) :=
  lock_guard self fun s => ((s._func.invoke args).1, { s with _func := (s._func.invoke args).2 })

/-! ## Threads -/

/-- Control points of the threads that use one executor.

* `sync_*`: a call of `exec_sync`: entered; lock guard constructed; callable
  body in flight; body left with outcome `r`, lock guard not yet destroyed;
  returned to the caller.
* `exec_*`: a call of `exec` (or `operator()`): entered; lock guard
  constructed; `std::async` has returned the future of thread `h`, lock guard
  not yet destroyed; returned to the caller.
* `task_*`: a thread created by `std::async`: created with its copies;
  callable body in flight; finished, outcome stored for the future. -/
inductive pc (σ α ε ρ : Type) where
  | sync_entry (args : α)
  | sync_locked (args : α)
  | sync_body (args : α)
  | sync_unwind (r : Except ε ρ)
  | sync_done (r : Except ε ρ)
  | exec_entry (args : α)
  | exec_locked (args : α)
  | exec_unwind (h : Nat)
  | exec_done (h : Nat)
  | task_pending (f : function_type σ α ε ρ) (args : α)
  | task_body (f : function_type σ α ε ρ) (args : α)
  | task_ready (r : Except ε ρ)

/-- The thread is between the construction and the destruction of a lock
guard. -/
def pc.critical {σ α ε ρ : Type} : pc σ α ε ρ → Bool
  | .sync_locked _ | .sync_body _ | .sync_unwind _ => true
  | .exec_locked _ | .exec_unwind _ => true
  | _ => false

/-- The thread is inside the callable body on behalf of `exec_sync`. -/
def pc.in_sync_body {σ α ε ρ : Type} : pc σ α ε ρ → Bool
  | .sync_body _ => true
  | _ => false

/-- The thread is inside the callable body on behalf of `exec`. -/
def pc.in_task_body {σ α ε ρ : Type} : pc σ α ε ρ → Bool
  | .task_body _ _ => true
  | _ => false

/-- Everything the threads share: the executor, the threads themselves
(thread `i` is `threads[i]`), and a record of the argument of every callable
invocation begun so far, in order. -/
structure world (σ α ε ρ : Type) where
  ex : executor σ α ε ρ
  threads : List (pc σ α ε ρ)
  invocations : List α

/-- Thread `i` executes its next statement.  `none`: there is no such thread,
it has finished, or it is blocked in a lock guard constructor. -/
def step {σ α ε ρ : Type} (i : Nat) (w : world σ α ε ρ) : Option (world σ α ε ρ) :=
  match w.threads[i]? with
  | none => none
  | some (.sync_entry a) =>
    if w.ex._mutex then none
    else some { w with ex := { w.ex with _mutex := true },
                       threads := w.threads.set i (.sync_locked a) }
  | some (.sync_locked a) =>
    some { w with threads := w.threads.set i (.sync_body a),
                  invocations := w.invocations ++ [a] }
  | some (.sync_body a) =>
    some { w with ex := { w.ex with _func := (w.ex._func.invoke a).2 },
                  threads := w.threads.set i (.sync_unwind (w.ex._func.invoke a).1) }
  | some (.sync_unwind r) =>
    some { w with ex := { w.ex with _mutex := false },
                  threads := w.threads.set i (.sync_done r) }
  | some (.sync_done _) => none
  | some (.exec_entry a) =>
    if w.ex._mutex then none
    else some { w with ex := { w.ex with _mutex := true },
                       threads := w.threads.set i (.exec_locked a) }
  | some (.exec_locked a) =>
    some { w with threads := w.threads.set i (.exec_unwind w.threads.length)
                              ++ [.task_pending (std_async w.ex._func a).func (std_async w.ex._func a).args] }
  | some (.exec_unwind h) =>
    some { w with ex := { w.ex with _mutex := false },
                  threads := w.threads.set i (.exec_done h) }
  | some (.exec_done _) => none
  | some (.task_pending f a) =>
    some { w with threads := w.threads.set i (.task_body f a),
                  invocations := w.invocations ++ [a] }
  | some (.task_body f a) =>
    some { w with threads := w.threads.set i (.task_ready (f.invoke a).1) }
  | some (.task_ready _) => none

/-- Executes a schedule: the listed threads take one step each, in order.
`none` when a listed thread cannot step. -/
def run {σ α ε ρ : Type} : List Nat → world σ α ε ρ → Option (world σ α ε ρ)
  | [], w => some w
  | i :: rest, w => (step i w).bind (run rest)

/-- A member-function call issued by a caller. -/
inductive request (α : Type) where
  | sync (args : α)
  | async (args : α)

/-- The arguments of a request. -/
def request.args {α : Type} : request α → α
  | .sync a => a
  | .async a => a

/-- The control point at which a request starts. -/
def request.entry {σ α ε ρ : Type} : request α → pc σ α ε ρ
  | .sync a => .sync_entry a
  | .async a => .exec_entry a

/-- The world right after an executor has been constructed from `func` and
the callers have issued their requests, none of which has started. -/
def start {σ α ε ρ : Type} (func : function_type σ α ε ρ) (calls : List (request α)) :
    world σ α ε ρ :=
  { ex := executor.ctor func, threads := calls.map request.entry, invocations := [] }

/-! ## Quantities kept by every step -/

/-- The mutex invariant: the number of threads between the construction and
the destruction of a lock guard is one while the mutex is owned and zero while
it is not. -/
def mutex_inv {σ α ε ρ : Type} (w : world σ α ε ρ) : Prop :=
  w.threads.countP pc.critical = if w.ex._mutex then 1 else 0

/-- The mutex invariant can be checked on a given world. -/
instance mutex_inv_decidable {σ α ε ρ : Type} (w : world σ α ε ρ) : Decidable (mutex_inv w) :=
  inferInstanceAs (Decidable (w.threads.countP pc.critical = if w.ex._mutex then 1 else 0))

/-- The callable `f(x) = x * 2`. -/
def times_two : function_type Unit Nat String Nat :=
  { target := (), call := fun _ x => (Except.ok (x * 2), ()) }

/-- A callable that throws when `x == 0` and returns `x` otherwise. -/
def fails_on_zero : function_type Unit Nat String Nat :=
  { target := (),
    call := fun _ x => (if x = 0 then Except.error "zero" else Except.ok x, ()) }

/-- A callable with a counter: every call adds its argument to the counter and
returns the new count. -/
def counter : function_type Nat Nat String Nat :=
  { target := 0, call := fun n x => (Except.ok (n + x), n + x) }

/-! ## Sequential layer: basic facts -/

/-- With the mutex unowned, the lock guard lets its scope run on the locked
executor and unlocks afterwards. -/
theorem lock_guard_free {σ α ε ρ χ : Type} (self : executor σ α ε ρ)
    (scope : executor σ α ε ρ → Except ε χ × executor σ α ε ρ)
    (hfree : self._mutex = false) :
    lock_guard self scope
      = some ((scope { self with _mutex := true }).1,
              { (scope { self with _mutex := true }).2 with _mutex := false }) := by
  unfold lock_guard
  rw [hfree]

/-- With the mutex owned, the lock guard constructor does not return. -/
theorem lock_guard_owned {σ α ε ρ χ : Type} (self : executor σ α ε ρ)
    (scope : executor σ α ε ρ → Except ε χ × executor σ α ε ρ)
    (howned : self._mutex = true) :
    lock_guard self scope = none := by
  unfold lock_guard
  rw [howned]

/-- What `exec_sync` computes on an executor whose mutex is unowned. -/
theorem exec_sync_free {σ α ε ρ : Type} (self : executor σ α ε ρ) (args : α)
    (hfree : self._mutex = false) :
    exec_sync self args
      = some ((self._func.invoke args).1,
              { _func := (self._func.invoke args).2, _mutex := false }) := by
  unfold exec_sync
  rw [lock_guard_free _ _ hfree]

/-- What `exec` computes on an executor whose mutex is unowned. -/
theorem exec_free {σ α ε ρ : Type} (self : executor σ α ε ρ) (args : α)
    (hfree : self._mutex = false) :
    exec self args
      = some (Except.ok (std_async self._func args),
              { _func := self._func, _mutex := false }) := by
  unfold exec
  rw [lock_guard_free _ _ hfree]

/-! ## Thread layer: the mutex invariant -/

/-- Replacing thread `i` changes the count of a predicate by the difference
between the old and the new thread. -/
theorem countP_set_of_getElem? {β : Type} (P : β → Bool) (l : List β) (i : Nat) (p q : β)
    (h : l[i]? = some p) :
    (l.set i q).countP P + (if P p then 1 else 0) = l.countP P + (if P q then 1 else 0) := by
  induction l generalizing i with
  | nil => simp at h
  | cons x xs ih =>
    cases i with
    | zero =>
      simp only [List.getElem?_cons_zero, Option.some.injEq] at h
      subst h
      simp only [List.set_cons_zero, List.countP_cons]
      omega
    | succ n =>
      simp only [List.getElem?_cons_succ] at h
      have := ih n h
      simp only [List.set_cons_succ, List.countP_cons]
      omega

/-- A thread that satisfies a predicate is counted. -/
theorem countP_pos_of_getElem? {β : Type} (P : β → Bool) (l : List β) (i : Nat) (p : β)
    (h : l[i]? = some p) (hp : P p = true) : 0 < l.countP P := by
  rw [List.countP_pos_iff]
  exact ⟨p, List.getElem?_mem h, hp⟩

/-- The world right after construction satisfies the mutex invariant. -/
theorem mutex_inv_start {σ α ε ρ : Type} (func : function_type σ α ε ρ)
    (calls : List (request α)) : mutex_inv (start func calls) := by
  unfold mutex_inv start executor.ctor
  simp only [Bool.false_eq_true, if_false, List.countP_eq_zero, List.mem_map]
  rintro p ⟨c, -, rfl⟩
  cases c <;> simp [request.entry, pc.critical]

/-- Every step preserves the mutex invariant. -/
theorem mutex_inv_step {σ α ε ρ : Type} (i : Nat) (w w' : world σ α ε ρ)
    (hstep : step i w = some w') (inv : mutex_inv w) : mutex_inv w' := by
  unfold mutex_inv at inv ⊢
  cases hget : w.threads[i]? with
  | none => simp [step, hget] at hstep
  | some p =>
    have hpos := countP_pos_of_getElem? pc.critical _ i p hget
    cases p with
    | sync_entry a =>
      simp only [step, hget] at hstep
      split at hstep
      · simp at hstep
      · rename_i hm
        cases hstep
        have hc := countP_set_of_getElem? pc.critical _ i _ (pc.sync_locked a) hget
        simp only [pc.critical, Bool.false_eq_true, if_false, if_true, hm] at hc inv ⊢
        omega
    | sync_locked a =>
      simp only [step, hget] at hstep
      cases hstep
      have hc := countP_set_of_getElem? pc.critical _ i _ (pc.sync_body a) hget
      simp only [pc.critical, Bool.false_eq_true, if_false, if_true] at hc ⊢
      omega
    | sync_body a =>
      simp only [step, hget] at hstep
      cases hstep
      have hc := countP_set_of_getElem? pc.critical _ i _
        (pc.sync_unwind (w.ex._func.invoke a).1) hget
      simp only [pc.critical, Bool.false_eq_true, if_false, if_true] at hc ⊢
      omega
    | sync_unwind r =>
      simp only [step, hget] at hstep
      cases hstep
      have hc := countP_set_of_getElem? pc.critical _ i _ (pc.sync_done r) hget
      have := hpos rfl
      simp only [pc.critical, Bool.false_eq_true, if_false, if_true] at hc ⊢
      split at inv <;> omega
    | sync_done r => simp [step, hget] at hstep
    | exec_entry a =>
      simp only [step, hget] at hstep
      split at hstep
      · simp at hstep
      · rename_i hm
        cases hstep
        have hc := countP_set_of_getElem? pc.critical _ i _ (pc.exec_locked a) hget
        simp only [pc.critical, Bool.false_eq_true, if_false, if_true, hm] at hc inv ⊢
        omega
    | exec_locked a =>
      simp only [step, hget] at hstep
      cases hstep
      have hc := countP_set_of_getElem? pc.critical _ i _
        (pc.exec_unwind w.threads.length) hget
      simp only [pc.critical, Bool.false_eq_true, if_false, if_true, List.countP_append,
        List.countP_cons, List.countP_nil] at hc ⊢
      omega
    | exec_unwind h =>
      simp only [step, hget] at hstep
      cases hstep
      have hc := countP_set_of_getElem? pc.critical _ i _ (pc.exec_done h) hget
      have := hpos rfl
      simp only [pc.critical, Bool.false_eq_true, if_false, if_true] at hc ⊢
      split at inv <;> omega
    | exec_done h => simp [step, hget] at hstep
    | task_pending f a =>
      simp only [step, hget] at hstep
      cases hstep
      have hc := countP_set_of_getElem? pc.critical _ i _ (pc.task_body f a) hget
      simp only [pc.critical, Bool.false_eq_true, if_false, if_true] at hc ⊢
      omega
    | task_body f a =>
      simp only [step, hget] at hstep
      cases hstep
      have hc := countP_set_of_getElem? pc.critical _ i _
        (pc.task_ready (f.invoke a).1) hget
      simp only [pc.critical, Bool.false_eq_true, if_false, if_true] at hc ⊢
      omega
    | task_ready r => simp [step, hget] at hstep

/-- Every schedule preserves the mutex invariant. -/
theorem mutex_inv_run {σ α ε ρ : Type} (sched : List Nat) (w w' : world σ α ε ρ)
    (hrun : run sched w = some w') (inv : mutex_inv w) : mutex_inv w' := by
  induction sched generalizing w with
  | nil =>
    simp only [run, Option.some.injEq] at hrun
    exact hrun ▸ inv
  | cons i rest ih =>
    simp only [run, Option.bind_eq_some] at hrun
    obtain ⟨w1, h1, h2⟩ := hrun
    exact ih w1 h2 (mutex_inv_step i w w1 h1 inv)

/-! ## Thread layer: what each statement does -/

/-- A thread index that is in use lies within the thread list. -/
theorem lt_length_of_getElem? {β : Type} (l : List β) (i : Nat) (p : β)
    (h : l[i]? = some p) : i < l.length := by
  obtain ⟨hlt, -⟩ := List.getElem?_eq_some_iff.mp h
  exact hlt

/-- Constructing the lock guard of `exec_sync`, mutex unowned. -/
theorem step_sync_entry {σ α ε ρ : Type} (i : Nat) (w : world σ α ε ρ) (a : α)
    (hat : w.threads[i]? = some (.sync_entry a)) (hfree : w.ex._mutex = false) :
    step i w = some { w with ex := { w.ex with _mutex := true },
                             threads := w.threads.set i (.sync_locked a) } := by
  simp [step, hat, hfree]

/-- Constructing a lock guard, mutex owned: the thread cannot proceed. -/
theorem step_sync_entry_blocked {σ α ε ρ : Type} (i : Nat) (w : world σ α ε ρ) (a : α)
    (hat : w.threads[i]? = some (.sync_entry a)) (howned : w.ex._mutex = true) :
    step i w = none := by
  simp [step, hat, howned]

/-- Entering the callable body in `exec_sync`. -/
theorem step_sync_locked {σ α ε ρ : Type} (i : Nat) (w : world σ α ε ρ) (a : α)
    (hat : w.threads[i]? = some (.sync_locked a)) :
    step i w = some { w with threads := w.threads.set i (.sync_body a),
                             invocations := w.invocations ++ [a] } := by
  simp [step, hat]

/-- Leaving the callable body in `exec_sync`. -/
theorem step_sync_body {σ α ε ρ : Type} (i : Nat) (w : world σ α ε ρ) (a : α)
    (hat : w.threads[i]? = some (.sync_body a)) :
    step i w = some { w with
      ex := { w.ex with _func := (w.ex._func.invoke a).2 },
      threads := w.threads.set i (.sync_unwind (w.ex._func.invoke a).1) } := by
  simp [step, hat]

/-- Destroying the lock guard of `exec_sync`. -/
theorem step_sync_unwind {σ α ε ρ : Type} (i : Nat) (w : world σ α ε ρ) (r : Except ε ρ)
    (hat : w.threads[i]? = some (.sync_unwind r)) :
    step i w = some { w with ex := { w.ex with _mutex := false },
                             threads := w.threads.set i (.sync_done r) } := by
  simp [step, hat]

/-- Constructing the lock guard of `exec`, mutex unowned. -/
theorem step_exec_entry {σ α ε ρ : Type} (i : Nat) (w : world σ α ε ρ) (a : α)
    (hat : w.threads[i]? = some (.exec_entry a)) (hfree : w.ex._mutex = false) :
    step i w = some { w with ex := { w.ex with _mutex := true },
                             threads := w.threads.set i (.exec_locked a) } := by
  simp [step, hat, hfree]

/-- The `std::async` statement of `exec`. -/
theorem step_exec_locked {σ α ε ρ : Type} (i : Nat) (w : world σ α ε ρ) (a : α)
    (hat : w.threads[i]? = some (.exec_locked a)) :
    step i w = some { w with
      threads := w.threads.set i (.exec_unwind w.threads.length)
                   ++ [.task_pending w.ex._func a] } := by
  simp [step, hat, std_async]

/-- Destroying the lock guard of `exec`. -/
theorem step_exec_unwind {σ α ε ρ : Type} (i : Nat) (w : world σ α ε ρ) (h : Nat)
    (hat : w.threads[i]? = some (.exec_unwind h)) :
    step i w = some { w with ex := { w.ex with _mutex := false },
                             threads := w.threads.set i (.exec_done h) } := by
  simp [step, hat]

/-- A launched thread enters the callable body. -/
theorem step_task_pending {σ α ε ρ : Type} (i : Nat) (w : world σ α ε ρ)
    (f : function_type σ α ε ρ) (a : α)
    (hat : w.threads[i]? = some (.task_pending f a)) :
    step i w = some { w with threads := w.threads.set i (.task_body f a),
                             invocations := w.invocations ++ [a] } := by
  simp [step, hat]

/-- A launched thread leaves the callable body. -/
theorem step_task_body {σ α ε ρ : Type} (i : Nat) (w : world σ α ε ρ)
    (f : function_type σ α ε ρ) (a : α)
    (hat : w.threads[i]? = some (.task_body f a)) :
    step i w = some { w with threads := w.threads.set i (.task_ready (f.invoke a).1) } := by
  simp [step, hat]

/-! ## Thread layer: invocations are conserved -/

/-- Running two schedules one after the other. -/
theorem run_append {σ α ε ρ : Type} (s₁ s₂ : List Nat) (w : world σ α ε ρ) :
    run (s₁ ++ s₂) w = (run s₁ w).bind (run s₂) := by
  induction s₁ generalizing w with
  | nil => simp [run]
  | cons i rest ih =>
    simp only [List.cons_append, run]
    cases step i w with
    | none => rfl
    | some w1 => simpa using ih w1

/-- A call of `exec_sync` that finds the mutex unowned and runs its four
statements in a row. -/
theorem run_exec_sync {σ α ε ρ : Type} (i : Nat) (w : world σ α ε ρ) (a : α)
    (hat : w.threads[i]? = some (.sync_entry a)) (hfree : w.ex._mutex = false) :
    run [i, i, i, i] w
      = some { ex := { _func := (w.ex._func.invoke a).2, _mutex := false },
               threads := w.threads.set i (.sync_done (w.ex._func.invoke a).1),
               invocations := w.invocations ++ [a] } := by
  have hlt := lt_length_of_getElem? _ _ _ hat
  simp [run, step, hat, hfree, hlt, List.getElem?_set_self, List.set_set]

/-- A call of `exec` that finds the mutex unowned and runs its three
statements in a row: the new thread is the last one and has not started. -/
theorem run_exec {σ α ε ρ : Type} (i : Nat) (w : world σ α ε ρ) (a : α)
    (hat : w.threads[i]? = some (.exec_entry a)) (hfree : w.ex._mutex = false) :
    run [i, i, i] w
      = some { ex := { _func := w.ex._func, _mutex := false },
               threads := w.threads.set i (.exec_done w.threads.length)
                            ++ [.task_pending w.ex._func a],
               invocations := w.invocations } := by
  have hlt := lt_length_of_getElem? _ _ _ hat
  simp [run, step, hat, hfree, hlt, List.getElem?_set_self, List.set_set, std_async,
    List.getElem?_append_left, List.set_append_left]

/-- A launched thread that runs its two statements in a row. -/
theorem run_task {σ α ε ρ : Type} (n : Nat) (w : world σ α ε ρ)
    (f : function_type σ α ε ρ) (a : α)
    (hat : w.threads[n]? = some (.task_pending f a)) :
    run [n, n] w
      = some { ex := w.ex,
               threads := w.threads.set n (.task_ready (f.invoke a).1),
               invocations := w.invocations ++ [a] } := by
  have hlt := lt_length_of_getElem? _ _ _ hat
  simp [run, step, hat, hlt, List.getElem?_set_self, List.set_set]

/-- The two layers agree on `exec_sync`: the uninterrupted run of the thread
ends with the outcome and the executor that the sequential `exec_sync`
computes. -/
theorem run_exec_sync_agrees {σ α ε ρ : Type} (i : Nat) (w : world σ α ε ρ) (a : α)
    (hat : w.threads[i]? = some (.sync_entry a)) (hfree : w.ex._mutex = false) :
    (run [i, i, i, i] w).map (fun w' => (w'.threads[i]?, w'.ex))
      = (exec_sync w.ex a).map (fun out => (some (.sync_done out.1), out.2)) := by
  have hlt := lt_length_of_getElem? _ _ _ hat
  rw [run_exec_sync i w a hat hfree, exec_sync_free _ _ hfree]
  simp [List.getElem?_set_self, hlt]

/-- The two layers agree on `exec`: the uninterrupted run of the caller and
then of the launched thread leaves the executor that the sequential `exec`
computes and stores for the future what `future.get` yields. -/
theorem run_exec_agrees {σ α ε ρ : Type} (i : Nat) (w : world σ α ε ρ) (a : α)
    (hat : w.threads[i]? = some (.exec_entry a)) (hfree : w.ex._mutex = false) :
    (run [i, i, i, w.threads.length, w.threads.length] w).map
        (fun w' => (w'.threads[w.threads.length]?, w'.ex))
      = (exec w.ex a).map
        (fun out => (out.1.toOption.map fun h => .task_ready h.get, out.2)) := by
  have hlt := lt_length_of_getElem? _ _ _ hat
  have hsplit : [i, i, i, w.threads.length, w.threads.length]
      = [i, i, i] ++ [w.threads.length, w.threads.length] := rfl
  rw [hsplit, run_append, run_exec i w a hat hfree, Option.some_bind,
    run_task w.threads.length _ w.ex._func a (by simp), exec_free _ _ hfree]
  simp [future.get, std_async, Except.toOption]

/-! ## Thread layer: consequences of the mutex invariant -/

/-- Under the mutex invariant, a thread inside a lock guard sees the mutex
owned. -/
theorem mutex_owned_of_critical {σ α ε ρ : Type} (w : world σ α ε ρ) (inv : mutex_inv w)
    (i : Nat) (p : pc σ α ε ρ) (hat : w.threads[i]? = some p) (hc : p.critical = true) :
    w.ex._mutex = true := by
  unfold mutex_inv at inv
  have hpos := countP_pos_of_getElem? pc.critical _ i p hat hc
  cases hm : w.ex._mutex with
  | true => rfl
  | false =>
    rw [hm] at inv
    simp only [Bool.false_eq_true, if_false] at inv
    omega

/-- A predicate counted at most once holds of at most one thread. -/
theorem index_unique_of_countP_le_one {β : Type} (P : β → Bool) (l : List β)
    (hle : l.countP P ≤ 1) (i j : Nat) (p q : β)
    (hi : l[i]? = some p) (hj : l[j]? = some q) (hp : P p = true) (hq : P q = true) :
    i = j := by
  induction l generalizing i j with
  | nil => simp at hi
  | cons x xs ih =>
    rw [List.countP_cons] at hle
    cases i with
    | zero =>
      cases j with
      | zero => rfl
      | succ m =>
        simp only [List.getElem?_cons_zero, Option.some.injEq] at hi
        simp only [List.getElem?_cons_succ] at hj
        have := countP_pos_of_getElem? P xs m q hj hq
        rw [hi, hp] at hle
        simp only [if_true] at hle
        omega
    | succ n =>
      cases j with
      | zero =>
        simp only [List.getElem?_cons_zero, Option.some.injEq] at hj
        simp only [List.getElem?_cons_succ] at hi
        have := countP_pos_of_getElem? P xs n p hi hp
        rw [hj, hq] at hle
        simp only [if_true] at hle
        omega
      | succ m =>
        simp only [List.getElem?_cons_succ] at hi hj
        have hle' : xs.countP P ≤ 1 := by omega
        rw [ih hle' n m hi hj]

/-- A thread in the callable body on behalf of `exec_sync` is inside a lock
guard. -/
theorem critical_of_in_sync_body {σ α ε ρ : Type} (p : pc σ α ε ρ)
    (h : p.in_sync_body = true) : p.critical = true := by
  cases p <;> first | rfl | simp [pc.in_sync_body] at h

/-- Under the mutex invariant at most one thread is inside a lock guard. -/
theorem countP_critical_le_one {σ α ε ρ : Type} (w : world σ α ε ρ) (inv : mutex_inv w) :
    w.threads.countP pc.critical ≤ 1 := by
  unfold mutex_inv at inv
  rw [inv]
  split <;> omega

/-! ## The claims: results and failures -/

/-- C1: on an executor whose mutex is unowned, as it is right after
construction, `exec_sync(args)` returns exactly the value that the wrapped
callable returns for `args` when called directly. -/
theorem exec_sync_returns_callable_value {σ α ε ρ : Type} (self : executor σ α ε ρ)
    (args : α) (v : ρ) (hfree : self._mutex = false)
    (hret : (self._func.invoke args).1 = Except.ok v) :
    (exec_sync self args).map Prod.fst = some (Except.ok v) := by
  rw [exec_sync_free self args hfree, Option.map_some', hret]

/-- Witness for C1: the callable `f(x) = x * 2`, `exec_sync(5)` returns `10`. -/
theorem exec_sync_returns_callable_value_witness :
    (executor.ctor times_two)._mutex = false
      ∧ (times_two.invoke 5).1 = Except.ok 10
      ∧ (exec_sync (executor.ctor times_two) 5).map Prod.fst = some (Except.ok 10) :=
  ⟨rfl, rfl, exec_sync_returns_callable_value (executor.ctor times_two) 5 10 rfl rfl⟩

/-- C2: on an executor whose mutex is unowned, `exec(args)` returns a future
that resolves to exactly the value the wrapped callable returns for `args`
when called directly; in the thread layer, the call of `exec` followed by the
launched thread stores that value for the future. -/
theorem exec_future_resolves_to_callable_value {σ α ε ρ : Type} (self : executor σ α ε ρ)
    (args : α) (v : ρ) (hfree : self._mutex = false)
    (hret : (self._func.invoke args).1 = Except.ok v) :
    (∃ h s, exec self args = some (Except.ok h, s) ∧ h.get = Except.ok v)
      ∧ ∀ (w : world σ α ε ρ) (i : Nat), w.ex = self →
          w.threads[i]? = some (pc.exec_entry args) →
          ∃ w', run [i, i, i, w.threads.length, w.threads.length] w = some w'
            ∧ w'.threads[i]? = some (pc.exec_done w.threads.length)
            ∧ w'.threads[w.threads.length]? = some (pc.task_ready (Except.ok v)) := by
  refine ⟨⟨std_async self._func args, _, exec_free self args hfree, hret⟩, ?_⟩
  intro w i hw hat
  subst hw
  have hlt := lt_length_of_getElem? _ _ _ hat
  have hsplit : [i, i, i, w.threads.length, w.threads.length]
      = [i, i, i] ++ [w.threads.length, w.threads.length] := rfl
  rw [hsplit, run_append, run_exec i w args hat hfree, Option.some_bind,
    run_task w.threads.length _ w.ex._func args (by simp), hret]
  refine ⟨_, rfl, ?_, ?_⟩
  · have hne : w.threads.length ≠ i := by omega
    simp [List.getElem?_set, List.getElem?_append_left, hlt, hne]
  · simp

/-- Witness for C2: the callable `f(x) = x * 2`, the future of `exec(5)`
resolves to `10`. -/
theorem exec_future_resolves_to_callable_value_witness :
    (executor.ctor times_two)._mutex = false
      ∧ (times_two.invoke 5).1 = Except.ok 10
      ∧ ∃ h s, exec (executor.ctor times_two) 5 = some (Except.ok h, s)
          ∧ h.get = Except.ok 10 :=
  ⟨rfl, rfl,
    (exec_future_resolves_to_callable_value (executor.ctor times_two) 5 10 rfl rfl).1⟩

/-- C3: on an executor whose mutex is unowned, `exec_sync(args)` fails with a
failure `e` exactly when the wrapped callable fails with `e` on `args`; its
outcome is the outcome of the callable, nothing added and nothing swallowed. -/
theorem exec_sync_fails_iff_callable_fails {σ α ε ρ : Type} (self : executor σ α ε ρ)
    (args : α) (hfree : self._mutex = false) :
    (∀ e : ε, (exec_sync self args).map Prod.fst = some (Except.error e)
        ↔ (self._func.invoke args).1 = Except.error e)
      ∧ (exec_sync self args).map Prod.fst = some (self._func.invoke args).1 := by
  rw [exec_sync_free self args hfree]
  simp

/-- Witness for C3: the callable that throws on `0`, `exec_sync(0)` throws the
same. -/
theorem exec_sync_fails_iff_callable_fails_witness :
    (executor.ctor fails_on_zero)._mutex = false
      ∧ (fails_on_zero.invoke 0).1 = Except.error "zero"
      ∧ (exec_sync (executor.ctor fails_on_zero) 0).map Prod.fst
          = some (Except.error "zero") :=
  ⟨rfl, rfl,
    ((exec_sync_fails_iff_callable_fails (executor.ctor fails_on_zero) 0 rfl).1 "zero").2 rfl⟩

/-- C6: `operator()(args)` is `exec(args)`: the same future (or the same
blocking) and the same executor afterwards, for every executor and every
arguments. -/
theorem operator_call_is_exec {σ α ε ρ : Type} (self : executor σ α ε ρ) (args : α) :
    operator_call self args = exec self args :=
  rfl

/-! ## The claims: the lock -/

/-- C5: in every interleaving of calls issued on one executor, at most one
thread is inside the callable body on behalf of `exec_sync`: the count of
such threads never exceeds one, two threads found there are the same thread,
and while one is there a call of `exec_sync` that has not yet taken the lock
cannot proceed. -/
theorem exec_sync_bodies_never_overlap {σ α ε ρ : Type} (func : function_type σ α ε ρ)
    (calls : List (request α)) (sched : List Nat) (w : world σ α ε ρ)
    (hrun : run sched (start func calls) = some w) :
    w.threads.countP pc.in_sync_body ≤ 1
      ∧ (∀ (i j : Nat) (a b : α), w.threads[i]? = some (pc.sync_body a) →
          w.threads[j]? = some (pc.sync_body b) → i = j)
      ∧ (∀ (i j : Nat) (a b : α), w.threads[i]? = some (pc.sync_body a) →
          w.threads[j]? = some (pc.sync_entry b) → step j w = none) := by
  have inv := mutex_inv_run sched _ w hrun (mutex_inv_start func calls)
  have hle : w.threads.countP pc.in_sync_body ≤ 1 :=
    le_trans (List.countP_mono_left fun p _ hp => critical_of_in_sync_body p hp)
      (countP_critical_le_one w inv)
  exact ⟨hle, fun i j a b hi hj =>
    index_unique_of_countP_le_one pc.in_sync_body _ hle i j _ _ hi hj rfl rfl,
    fun i j a b hi hj =>
      step_sync_entry_blocked j w b hj (mutex_owned_of_critical w inv i _ hi rfl)⟩

/-- Witness for C5: `exec_sync(5)` and `exec_sync(7)` issued together; after
the first caller has taken the lock and entered the body, one body is in
flight and the second caller cannot proceed. -/
theorem exec_sync_bodies_never_overlap_witness :
    run [0, 0] (start times_two [request.sync 5, request.sync 7])
        = some { ex := { _func := times_two, _mutex := true },
                 threads := [pc.sync_body 5, pc.sync_entry 7],
                 invocations := [5] }
      ∧ ([pc.sync_body 5, pc.sync_entry 7] : List (pc Unit Nat String Nat)).countP
          pc.in_sync_body ≤ 1
      ∧ step 1 { ex := { _func := times_two, _mutex := true },
                 threads := [pc.sync_body 5, pc.sync_entry 7],
                 invocations := [5] } = none :=
  ⟨rfl, (exec_sync_bodies_never_overlap times_two [request.sync 5, request.sync 7] [0, 0]
    { ex := { _func := times_two, _mutex := true },
      threads := [pc.sync_body 5, pc.sync_entry 7],
      invocations := [5] } rfl).1,
    (exec_sync_bodies_never_overlap times_two [request.sync 5, request.sync 7] [0, 0]
    { ex := { _func := times_two, _mutex := true },
      threads := [pc.sync_body 5, pc.sync_entry 7],
      invocations := [5] } rfl).2.2 0 1 5 7 rfl rfl⟩

/-- C7: in every interleaving, a call of `exec_sync` takes the mutex from
unowned to owned, sees it owned before, during and after the callable body,
and the statement that hands the outcome `r` to the caller, a value or a
failure alike, is the one that releases the mutex.  Run without interruption
from an unowned mutex, the call ends with the outcome of the callable
delivered and the mutex unowned again. -/
theorem exec_sync_holds_lock_for_whole_call {σ α ε ρ : Type}
    (func : function_type σ α ε ρ) (calls : List (request α)) (sched : List Nat)
    (w : world σ α ε ρ) (hrun : run sched (start func calls) = some w) (i : Nat) :
    (∀ a, w.threads[i]? = some (pc.sync_entry a) → w.ex._mutex = false →
        ∃ w', step i w = some w' ∧ w'.threads[i]? = some (pc.sync_locked a)
          ∧ w'.ex._mutex = true)
      ∧ (∀ a, w.threads[i]? = some (pc.sync_locked a) → w.ex._mutex = true ∧
        ∃ w', step i w = some w' ∧ w'.threads[i]? = some (pc.sync_body a)
          ∧ w'.ex._mutex = true)
      ∧ (∀ a, w.threads[i]? = some (pc.sync_body a) → w.ex._mutex = true ∧
        ∃ w', step i w = some w'
          ∧ w'.threads[i]? = some (pc.sync_unwind (w.ex._func.invoke a).1)
          ∧ w'.ex._mutex = true)
      ∧ (∀ r, w.threads[i]? = some (pc.sync_unwind r) → w.ex._mutex = true ∧
        ∃ w', step i w = some w' ∧ w'.threads[i]? = some (pc.sync_done r)
          ∧ w'.ex._mutex = false)
      ∧ (∀ a, w.threads[i]? = some (pc.sync_entry a) → w.ex._mutex = false →
        ∃ w', run [i, i, i, i] w = some w'
          ∧ w'.threads[i]? = some (pc.sync_done (w.ex._func.invoke a).1)
          ∧ w'.ex._mutex = false) := by
  have inv := mutex_inv_run sched _ w hrun (mutex_inv_start func calls)
  refine ⟨?_, ?_, ?_, ?_, ?_⟩
  · intro a hat hfree
    have hlt := lt_length_of_getElem? _ _ _ hat
    exact ⟨_, step_sync_entry i w a hat hfree, List.getElem?_set_self hlt, rfl⟩
  · intro a hat
    have hlt := lt_length_of_getElem? _ _ _ hat
    have hm := mutex_owned_of_critical w inv i _ hat rfl
    exact ⟨hm, _, step_sync_locked i w a hat, List.getElem?_set_self hlt, hm⟩
  · intro a hat
    have hlt := lt_length_of_getElem? _ _ _ hat
    have hm := mutex_owned_of_critical w inv i _ hat rfl
    exact ⟨hm, _, step_sync_body i w a hat, List.getElem?_set_self hlt, hm⟩
  · intro r hat
    have hlt := lt_length_of_getElem? _ _ _ hat
    have hm := mutex_owned_of_critical w inv i _ hat rfl
    exact ⟨hm, _, step_sync_unwind i w r hat, List.getElem?_set_self hlt, rfl⟩
  · intro a hat hfree
    have hlt := lt_length_of_getElem? _ _ _ hat
    exact ⟨_, run_exec_sync i w a hat hfree, List.getElem?_set_self hlt, rfl⟩

/-- Witness for C7: the callable that throws on `0`; when `exec_sync(0)` has
left the body with the failure, the mutex is still owned, and the next
statement hands the failure to the caller with the mutex released. -/
theorem exec_sync_holds_lock_for_whole_call_witness :
    run [0, 0, 0] (start fails_on_zero [request.sync 0])
        = some { ex := { _func := fails_on_zero, _mutex := true },
                 threads := [pc.sync_unwind (Except.error "zero")],
                 invocations := [0] }
      ∧ ∃ w', step 0 { ex := { _func := fails_on_zero, _mutex := true },
                       threads := [pc.sync_unwind (Except.error "zero")],
                       invocations := [0] } = some w'
          ∧ w'.threads[0]? = some (pc.sync_done (Except.error "zero"))
          ∧ w'.ex._mutex = false :=
  ⟨rfl, ((exec_sync_holds_lock_for_whole_call fails_on_zero [request.sync 0] [0, 0, 0]
    { ex := { _func := fails_on_zero, _mutex := true },
      threads := [pc.sync_unwind (Except.error "zero")],
      invocations := [0] } rfl 0).2.2.2.1 (Except.error "zero") rfl).2⟩

/-- C8: in every interleaving, a call of `exec` takes the mutex from unowned
to owned, launches the new thread with the mutex owned and without invoking
the callable, and releases the mutex when it returns the future; the launched
thread enters and leaves the callable body without touching the executor or
its mutex, whatever the state of the mutex.  In particular a world is reached
in which `exec` has returned, the mutex is unowned and the callable body is
in flight. -/
theorem exec_locks_only_the_launch {σ α ε ρ : Type}
    (func : function_type σ α ε ρ) (calls : List (request α)) (sched : List Nat)
    (w : world σ α ε ρ) (hrun : run sched (start func calls) = some w) (i : Nat) :
    (∀ a, w.threads[i]? = some (pc.exec_entry a) → w.ex._mutex = false →
        ∃ w', step i w = some w' ∧ w'.threads[i]? = some (pc.exec_locked a)
          ∧ w'.ex._mutex = true)
      ∧ (∀ a, w.threads[i]? = some (pc.exec_locked a) → w.ex._mutex = true ∧
        ∃ w', step i w = some w'
          ∧ w'.threads[i]? = some (pc.exec_unwind w.threads.length)
          ∧ w'.threads[w.threads.length]? = some (pc.task_pending w.ex._func a)
          ∧ w'.ex._mutex = true ∧ w'.invocations = w.invocations)
      ∧ (∀ h, w.threads[i]? = some (pc.exec_unwind h) → w.ex._mutex = true ∧
        ∃ w', step i w = some w' ∧ w'.threads[i]? = some (pc.exec_done h)
          ∧ w'.ex._mutex = false ∧ w'.invocations = w.invocations)
      ∧ (∀ f a, w.threads[i]? = some (pc.task_pending f a) →
        ∃ w', step i w = some w' ∧ w'.threads[i]? = some (pc.task_body f a)
          ∧ w'.ex = w.ex)
      ∧ (∀ f a, w.threads[i]? = some (pc.task_body f a) →
        ∃ w', step i w = some w'
          ∧ w'.threads[i]? = some (pc.task_ready (f.invoke a).1) ∧ w'.ex = w.ex)
      ∧ (∀ a, ∃ w', run [0, 0, 0, 1] (start func [request.async a]) = some w'
          ∧ w'.threads[0]? = some (pc.exec_done 1)
          ∧ w'.threads[1]? = some (pc.task_body func a)
          ∧ w'.ex._mutex = false) := by
  have inv := mutex_inv_run sched _ w hrun (mutex_inv_start func calls)
  refine ⟨?_, ?_, ?_, ?_, ?_, ?_⟩
  · intro a hat hfree
    have hlt := lt_length_of_getElem? _ _ _ hat
    exact ⟨_, step_exec_entry i w a hat hfree, List.getElem?_set_self hlt, rfl⟩
  · intro a hat
    have hlt := lt_length_of_getElem? _ _ _ hat
    have hm := mutex_owned_of_critical w inv i _ hat rfl
    refine ⟨hm, _, step_exec_locked i w a hat, ?_, ?_, hm, rfl⟩
    · simp [List.getElem?_append_left, hlt]
    · simp
  · intro h hat
    have hlt := lt_length_of_getElem? _ _ _ hat
    have hm := mutex_owned_of_critical w inv i _ hat rfl
    exact ⟨hm, _, step_exec_unwind i w h hat, List.getElem?_set_self hlt, rfl, rfl⟩
  · intro f a hat
    have hlt := lt_length_of_getElem? _ _ _ hat
    exact ⟨_, step_task_pending i w f a hat, List.getElem?_set_self hlt, rfl⟩
  · intro f a hat
    have hlt := lt_length_of_getElem? _ _ _ hat
    exact ⟨_, step_task_body i w f a hat, List.getElem?_set_self hlt, rfl⟩
  · intro a
    exact ⟨_, rfl, rfl, rfl, rfl⟩

/-- Witness for C8: `exec(5)` on the callable `f(x) = x * 2`; with the lock
guard constructed, the next statement launches thread `1`, not yet started,
and the mutex stays owned. -/
theorem exec_locks_only_the_launch_witness :
    run [0] (start times_two [request.async 5])
        = some { ex := { _func := times_two, _mutex := true },
                 threads := [pc.exec_locked 5],
                 invocations := [] }
      ∧ ∃ w', step 0 { ex := { _func := times_two, _mutex := true },
                       threads := [pc.exec_locked 5],
                       invocations := [] } = some w'
          ∧ w'.threads[0]? = some (pc.exec_unwind 1)
          ∧ w'.threads[1]? = some (pc.task_pending times_two 5)
          ∧ w'.ex._mutex = true ∧ w'.invocations = [] :=
  ⟨rfl, ((exec_locks_only_the_launch times_two [request.async 5] [0]
    { ex := { _func := times_two, _mutex := true },
      threads := [pc.exec_locked 5],
      invocations := [] } rfl 0).2.1 5 rfl).2⟩

/-! ## The claims: invocations -/

/-- C10: on an executor whose mutex is unowned, `exec` hands the launched
thread the stored callable as it is at the launch and leaves the stored
callable unchanged, also after the launched thread has run, whereas
`exec_sync` leaves the stored callable as the call has changed it.  For the
counting callable, `exec_sync(1)` returns `1` after `exec(1)` and `2` after
`exec_sync(1)`. -/
theorem exec_runs_a_copy_exec_sync_runs_in_place {σ α ε ρ : Type}
    (self : executor σ α ε ρ) (args : α) (hfree : self._mutex = false) :
    (∃ h s, exec self args = some (Except.ok h, s) ∧ h.func = self._func
        ∧ s._func = self._func)
      ∧ (∀ (w : world σ α ε ρ) (i : Nat), w.ex = self →
          w.threads[i]? = some (pc.exec_entry args) →
          ∃ w', run [i, i, i, w.threads.length, w.threads.length] w = some w'
            ∧ w'.threads[w.threads.length]?
                = some (pc.task_ready (self._func.invoke args).1)
            ∧ w'.ex._func = self._func)
      ∧ (∃ r s, exec_sync self args = some (r, s)
        ∧ s._func = (self._func.invoke args).2)
      ∧ ((exec (executor.ctor counter) 1).bind fun out => exec_sync out.2 1).map Prod.fst
          = some (Except.ok 1)
      ∧ ((exec_sync (executor.ctor counter) 1).bind fun out => exec_sync out.2 1).map
          Prod.fst = some (Except.ok 2) := by
  refine ⟨⟨_, _, exec_free self args hfree, rfl, rfl⟩, ?_,
    ⟨_, _, exec_sync_free self args hfree, rfl⟩, rfl, rfl⟩
  intro w i hw hat
  subst hw
  have hsplit : [i, i, i, w.threads.length, w.threads.length]
      = [i, i, i] ++ [w.threads.length, w.threads.length] := rfl
  rw [hsplit, run_append, run_exec i w args hat hfree, Option.some_bind,
    run_task w.threads.length _ w.ex._func args (by simp)]
  exact ⟨_, rfl, by simp, rfl⟩

/-- Witness for C10: the counting callable; `exec(1)` leaves the stored
counter at `0`, `exec_sync(1)` leaves it at `1`. -/
theorem exec_runs_a_copy_exec_sync_runs_in_place_witness :
    (executor.ctor counter)._mutex = false
      ∧ (∃ h s, exec (executor.ctor counter) 1 = some (Except.ok h, s)
          ∧ h.func = counter ∧ s._func = counter)
      ∧ (∃ r s, exec_sync (executor.ctor counter) 1 = some (r, s)
          ∧ s._func = (counter.invoke 1).2) :=
  ⟨rfl, (exec_runs_a_copy_exec_sync_runs_in_place (executor.ctor counter) 1 rfl).1,
    (exec_runs_a_copy_exec_sync_runs_in_place (executor.ctor counter) 1 rfl).2.2.1⟩

end versa.async
